import Mathlib

/-!
Shallow embedding of the MuleBox control/render core (src/src/main.cpp).

The catalog (`ir_collection` / `IR_COUNT` from the generated header
`ir_data.h`) and the DSP primitives (daisysp `Svf`, `ImpulseResponse`) are
external collaborators; they are modelled as parameters.  libDaisy's
`PersistentStorage` is modelled by its documented contract: `GetSettings`
returns the in-memory record, `Save` copies it to the stored record,
`RestoreDefaults` resets both to the defaults supplied at `Init`.
Audio samples are modelled as rationals.
-/

/-- `SETTINGS_VERSION` (main.cpp:37). -/
def SETTINGS_VERSION : Int := 4

/-- `MAX_IR_POSITIONS` (main.cpp:41). -/
def MAX_IR_POSITIONS : Int := 12

/-- `MAX_IR_BUFFER_SIZE` (main.cpp:53). -/
def MAX_IR_BUFFER_SIZE : Nat := 8192

/-- One catalog entry: `IRInfo` with a sample pointer and a length. -/
structure IRInfo where
  length : Nat
  data : Nat → ℚ

/-- The compiled-in catalog `ir_collection` with `IR_COUNT` entries. -/
structure Catalog where
  count : Nat
  entries : Nat → IRInfo

/-- Persisted record `Settings` (main.cpp:89-99). -/
structure Settings where
  version : Int
  irIndex : Int
deriving DecidableEq

/-- The compiled default record passed to `savedSettings.Init` (main.cpp:214-218). -/
def defaultSettings : Settings := ⟨SETTINGS_VERSION, 0⟩

/-- The mutable state shared between control and render context:
the globals of main.cpp plus the two `PersistentStorage` records. -/
structure SysState where
  currentIrIndex : Int
  irBypass : Bool
  irRamBuffer : Nat → ℚ
  irLength : Nat
  localSettings : Settings
  storedSettings : Settings
  triggerSettingsSave : Bool

/-- Write a single buffer cell, as one iteration of the copy loop does. -/
def writeAt (buf : Nat → ℚ) (idx : Nat) (v : ℚ) : Nat → ℚ :=
  fun j => if j = idx then v else buf j

/-- The copy loop of `loadIrToRam` (main.cpp:75-77): sequentially writes
`buf[i] = data[i]` for `i = 0 .. len-1`. -/
def copyLoop (data : Nat → ℚ) (buf : Nat → ℚ) : Nat → (Nat → ℚ)
  | 0 => buf
  | n + 1 => writeAt (copyLoop data buf n) n (data n)

/-- The index validation inside `loadIrToRam` (main.cpp:67-69): an index
outside `[0, IR_COUNT-1]` is replaced by `0`. -/
def validIndex (cat : Catalog) (irIndex : Int) : Int :=
  if irIndex < 0 ∨ (cat.count : Int) ≤ irIndex then 0 else irIndex

/-- `loadIrToRam` (main.cpp:57-83). -/
def loadIrToRam (cat : Catalog) (irIndex : Int) (s : SysState) : SysState :=
  if cat.count = 0 then
    { s with irBypass := true }
  else
    let idx := validIndex cat irIndex
    let info := cat.entries idx.toNat
    { s with
      irRamBuffer := copyLoop info.data s.irRamBuffer info.length,
      irLength := info.length,
      currentIrIndex := idx,
      irBypass := false }

/-- `saveSettings` (main.cpp:137-145). -/
def saveSettings (s : SysState) : SysState :=
  { s with
    localSettings := ⟨SETTINGS_VERSION, s.currentIrIndex⟩,
    triggerSettingsSave := true }

/-- `savedSettings.RestoreDefaults()`: libDaisy resets the in-memory record
to the defaults supplied at `Init` and writes them back to storage. -/
def restoreDefaults (s : SysState) : SysState :=
  { s with localSettings := defaultSettings, storedSettings := defaultSettings }

/-- The version-matching tail of `loadSettings` (main.cpp:118-134): the
clamp on lines 127-130 is the same validation `loadIrToRam` performs. -/
def loadSettingsOnce (cat : Catalog) (s : SysState) : SysState :=
  if cat.count = 0 then
    { s with irBypass := true }
  else
    loadIrToRam cat (validIndex cat s.localSettings.irIndex) s

/-- `loadSettings` (main.cpp:104-135), fuelled: the C++ function calls itself
after `RestoreDefaults` on a version mismatch. -/
def loadSettingsAux (cat : Catalog) : Nat → SysState → SysState
  | 0, s => s
  | fuel + 1, s =>
    if s.localSettings.version ≠ SETTINGS_VERSION then
      loadSettingsAux cat fuel (restoreDefaults s)
    else
      loadSettingsOnce cat s

/-- `loadSettings` with fuel 2, which suffices (see the migration theorem). -/
def loadSettings (cat : Catalog) (s : SysState) : SysState :=
  loadSettingsAux cat 2 s

/-- Truncation toward zero, the semantics of C's `(int)` cast on a float:
for a rational `num/den` with `den > 0` this is `Int.tdiv num den`. -/
def ctrunc (q : ℚ) : Int :=
  Int.tdiv q.num (q.den : Int)

/-- Selector quantization and clamping (main.cpp:240-244): round half up,
then clamp to `[0, MAX_IR_POSITIONS-1]`. -/
def quantizeSelector (rawValue : ℚ) : Int :=
  let p := ctrunc (rawValue + 1/2)
  let p := if p < 0 then 0 else p
  if MAX_IR_POSITIONS ≤ p then MAX_IR_POSITIONS - 1 else p

/-- The settings flush at the top of the main loop (main.cpp:229-232). -/
def flushSettings (s : SysState) : SysState :=
  if s.triggerSettingsSave then
    { s with storedSettings := s.localSettings, triggerSettingsSave := false }
  else s

/-- The `shouldBypass` computation of the control loop (main.cpp:247):
bypass when the quantized selector position reaches the catalog size. -/
def shouldBypassOf (cat : Catalog) (rawValue : ℚ) : Bool :=
  decide ((cat.count : Int) ≤ quantizeSelector rawValue)

/-- One iteration of the control loop (main.cpp:226-266): flush the dirty
settings, read and quantize the selector, then apply selection changes. -/
def controlTick (cat : Catalog) (rawValue : ℚ) (s0 : SysState) : SysState :=
  let s1 := flushSettings s0
  let selectedPosition := quantizeSelector rawValue
  let shouldBypass := shouldBypassOf cat rawValue
  let s2 :=
    if shouldBypass ≠ s1.irBypass then
      saveSettings { s1 with irBypass := shouldBypass }
    else s1
  if shouldBypass = false ∧ selectedPosition ≠ s2.currentIrIndex then
    saveSettings (loadIrToRam cat selectedPosition s2)
  else s2

/-- The state after startup (main.cpp:187-219 up to `loadSettings`):
globals are zero-initialized and `savedSettings.Init` reads the stored
record into the in-memory copy. -/
def bootInit (stored : Settings) : SysState :=
  { currentIrIndex := 0
    irBypass := false
    irRamBuffer := fun _ => 0
    irLength := 0
    localSettings := stored
    storedSettings := stored
    triggerSettingsSave := false }

/-- The black-box DSP primitives of the render path: the `Svf` filter
(`Process`/`Peak`, threading a filter state of type `σ`) and the
`ImpulseResponse` convolution over the published buffer and length. -/
structure DspOps (σ : Type) where
  svfProcess : σ → ℚ → σ
  svfPeak : σ → ℚ
  convolve : (Nat → ℚ) → Nat → ℚ → ℚ

/-- The per-sample body of `AudioCallback`'s loop (main.cpp:164-184):
filter, peak, blend, optional convolution.  Returns the updated filter
state and the mono output value. -/
def processSample (ops : DspOps σ) (bypass : Bool) (wetGain : ℚ)
    (kernel : Nat → ℚ) (klen : Nat) (st : σ) (x : ℚ) : σ × ℚ :=
  let st2 := ops.svfProcess st x
  let peak := ops.svfPeak st2
  let boosted := x + peak * wetGain
  let output := if bypass then boosted else ops.convolve kernel klen boosted
  (st2, output)

/-- `AudioCallback` (main.cpp:154-185): maps the mono input block to a
stereo block, writing the same value to the left and right channel. -/
def audioCallback (ops : DspOps σ) (bypass : Bool) (wetGain : ℚ)
    (kernel : Nat → ℚ) (klen : Nat) : σ → List ℚ → List (ℚ × ℚ)
  | _, [] => []
  | st, x :: xs =>
    let r := processSample ops bypass wetGain kernel klen st x
    (r.2, r.2) :: audioCallback ops bypass wetGain kernel klen r.1 xs

/-- The spec's per-sample formula (spec §4.1): sample `i`'s output is
`boosted = input + peak * gain` (with the peak of the filter state after
processing inputs `0..i`), convolved with the active kernel unless
bypassed. -/
def specSampleOutput (ops : DspOps σ) (bypass : Bool) (wetGain : ℚ)
    (kernel : Nat → ℚ) (klen : Nat) (st : σ) (inp : List ℚ) (i : Nat) : ℚ :=
  let x := inp.getD i 0
  let peak := ops.svfPeak ((inp.take (i + 1)).foldl ops.svfProcess st)
  let boosted := x + peak * wetGain
  if bypass then boosted else ops.convolve kernel klen boosted

/-- Index-bound invariant of `currentIrIndex` for a non-empty catalog. -/
def invIndex (cat : Catalog) (s : SysState) : Prop :=
  cat.count ≠ 0 → 0 ≤ s.currentIrIndex ∧ s.currentIrIndex < (cat.count : Int)

instance (cat : Catalog) (s : SysState) : Decidable (invIndex cat s) := by
  unfold invIndex; infer_instance

/-! Concrete fixtures used to exercise the definitions. -/

/-- A one-sample kernel whose sample value is `1`. -/
def testKernel : IRInfo := ⟨1, fun _ => 1⟩

/-- An empty catalog (`IR_COUNT = 0`). -/
def testCat0 : Catalog := ⟨0, fun _ => testKernel⟩

/-- A one-entry catalog. -/
def testCat1 : Catalog := ⟨1, fun _ => testKernel⟩

/-- A two-entry catalog. -/
def testCat2 : Catalog := ⟨2, fun _ => testKernel⟩

/-- A bypassed state with index 0 and a zeroed buffer. -/
def testStateBypassed : SysState :=
  ⟨0, true, fun _ => 0, 0, ⟨SETTINGS_VERSION, 0⟩, ⟨SETTINGS_VERSION, 0⟩, false⟩

/-- An active (non-bypassed) state with index 0 and a zeroed buffer. -/
def testStateActive : SysState :=
  ⟨0, false, fun _ => 0, 0, ⟨SETTINGS_VERSION, 0⟩, ⟨SETTINGS_VERSION, 0⟩, false⟩

/-- A state whose persisted record has a stale schema version. -/
def testStateStale : SysState :=
  ⟨0, false, fun _ => 0, 0, ⟨SETTINGS_VERSION - 1, 7⟩, ⟨SETTINGS_VERSION - 1, 7⟩, false⟩

/-- A state whose persisted record stores index 5, above a size-2 catalog. -/
def testStateOob : SysState :=
  ⟨0, false, fun _ => 0, 0, ⟨SETTINGS_VERSION, 5⟩, ⟨SETTINGS_VERSION, 5⟩, false⟩

/-- A concrete instantiation of the DSP primitives over state `ℚ`:
an accumulator filter, identity peak, and a doubling convolution. -/
def testOps : DspOps ℚ :=
  ⟨fun st x => st + x, fun st => st, fun _ _ x => x + x⟩

/-! Helper lemmas about the individual operations. -/

theorem flushSettings_irBypass (s : SysState) :
    (flushSettings s).irBypass = s.irBypass := by
  unfold flushSettings; split <;> rfl

theorem flushSettings_currentIrIndex (s : SysState) :
    (flushSettings s).currentIrIndex = s.currentIrIndex := by
  unfold flushSettings; split <;> rfl

theorem flushSettings_irRamBuffer (s : SysState) :
    (flushSettings s).irRamBuffer = s.irRamBuffer := by
  unfold flushSettings; split <;> rfl

theorem flushSettings_localSettings (s : SysState) :
    (flushSettings s).localSettings = s.localSettings := by
  unfold flushSettings; split <;> rfl

theorem saveSettings_irBypass (s : SysState) :
    (saveSettings s).irBypass = s.irBypass := rfl

theorem saveSettings_currentIrIndex (s : SysState) :
    (saveSettings s).currentIrIndex = s.currentIrIndex := rfl

theorem saveSettings_trigger (s : SysState) :
    (saveSettings s).triggerSettingsSave = true := rfl

theorem copyLoop_apply (data buf : Nat → ℚ) (len i : Nat) :
    copyLoop data buf len i = if i < len then data i else buf i := by
  induction len with
  | zero => simp [copyLoop]
  | succ n ih =>
    by_cases h : i = n
    · subst h; simp [copyLoop, writeAt]
    · simp only [copyLoop, writeAt, if_neg h, ih]
      by_cases h2 : i < n
      · rw [if_pos h2, if_pos (by omega)]
      · rw [if_neg h2, if_neg (by omega)]

theorem validIndex_nonneg (cat : Catalog) (idx : Int) : 0 ≤ validIndex cat idx := by
  unfold validIndex; split <;> omega

theorem validIndex_lt (cat : Catalog) (idx : Int) (h : cat.count ≠ 0) :
    validIndex cat idx < (cat.count : Int) := by
  unfold validIndex; split <;> omega

theorem validIndex_of_inbounds (cat : Catalog) (idx : Int)
    (h1 : 0 ≤ idx) (h2 : idx < (cat.count : Int)) : validIndex cat idx = idx := by
  unfold validIndex
  rw [if_neg (by omega)]

theorem loadIrToRam_empty (cat : Catalog) (idx : Int) (s : SysState)
    (h : cat.count = 0) : loadIrToRam cat idx s = { s with irBypass := true } := by
  unfold loadIrToRam
  rw [if_pos h]

theorem loadIrToRam_irBypass (cat : Catalog) (idx : Int) (s : SysState)
    (h : cat.count ≠ 0) : (loadIrToRam cat idx s).irBypass = false := by
  unfold loadIrToRam
  rw [if_neg h]

theorem loadIrToRam_currentIrIndex (cat : Catalog) (idx : Int) (s : SysState)
    (h : cat.count ≠ 0) :
    (loadIrToRam cat idx s).currentIrIndex = validIndex cat idx := by
  unfold loadIrToRam
  rw [if_neg h]

theorem loadIrToRam_irRamBuffer (cat : Catalog) (idx : Int) (s : SysState)
    (h : cat.count ≠ 0) :
    (loadIrToRam cat idx s).irRamBuffer =
      copyLoop (cat.entries (validIndex cat idx).toNat).data s.irRamBuffer
        (cat.entries (validIndex cat idx).toNat).length := by
  unfold loadIrToRam
  rw [if_neg h]

theorem quantizeSelector_nonneg (r : ℚ) : 0 ≤ quantizeSelector r := by
  unfold quantizeSelector MAX_IR_POSITIONS
  dsimp only
  split <;> split <;> omega

theorem quantizeSelector_lt (r : ℚ) : quantizeSelector r < MAX_IR_POSITIONS := by
  unfold quantizeSelector MAX_IR_POSITIONS
  dsimp only
  split <;> split <;> omega

theorem loadIrToRam_irLength (cat : Catalog) (idx : Int) (s : SysState)
    (h : cat.count ≠ 0) :
    (loadIrToRam cat idx s).irLength =
      (cat.entries (validIndex cat idx).toNat).length := by
  unfold loadIrToRam
  rw [if_neg h]

theorem loadIrToRam_localSettings (cat : Catalog) (idx : Int) (s : SysState) :
    (loadIrToRam cat idx s).localSettings = s.localSettings := by
  unfold loadIrToRam
  split <;> rfl

theorem flushSettings_trigger (s : SysState) :
    (flushSettings s).triggerSettingsSave = false := by
  unfold flushSettings
  split
  case isTrue h => rfl
  case isFalse h => exact Bool.not_eq_true _ ▸ (by simpa using h)

theorem loadSettingsOnce_localSettings (cat : Catalog) (s : SysState) :
    (loadSettingsOnce cat s).localSettings = s.localSettings := by
  unfold loadSettingsOnce
  split
  · rfl
  · exact loadIrToRam_localSettings _ _ _

theorem loadSettingsOnce_nonempty (cat : Catalog) (s : SysState)
    (h : cat.count ≠ 0) :
    loadSettingsOnce cat s = loadIrToRam cat (validIndex cat s.localSettings.irIndex) s := by
  unfold loadSettingsOnce
  rw [if_neg h]

theorem loadSettingsAux_matched (cat : Catalog) (s : SysState) (fuel : Nat)
    (h : s.localSettings.version = SETTINGS_VERSION) :
    loadSettingsAux cat (fuel + 1) s = loadSettingsOnce cat s := by
  unfold loadSettingsAux
  rw [if_neg (not_ne_iff.mpr h)]

theorem restoreDefaults_version (s : SysState) :
    (restoreDefaults s).localSettings.version = SETTINGS_VERSION := rfl

theorem loadSettingsAux_mismatch (cat : Catalog) (s : SysState) (fuel : Nat)
    (h : s.localSettings.version ≠ SETTINGS_VERSION) :
    loadSettingsAux cat (fuel + 2) s = loadSettingsOnce cat (restoreDefaults s) := by
  show loadSettingsAux cat (fuel + 1 + 1) s = _
  unfold loadSettingsAux
  rw [if_pos h]
  exact loadSettingsAux_matched cat (restoreDefaults s) fuel (restoreDefaults_version s)

theorem shouldBypassOf_false (cat : Catalog) (r : ℚ)
    (h : shouldBypassOf cat r = false) : cat.count ≠ 0 := by
  unfold shouldBypassOf at h
  rw [decide_eq_false_iff_not] at h
  have := quantizeSelector_nonneg r
  omega

theorem controlTick_irBypass (cat : Catalog) (r : ℚ) (s : SysState) :
    (controlTick cat r s).irBypass = shouldBypassOf cat r := by
  unfold controlTick
  dsimp only
  split
  case isTrue h1 =>
    split
    case isTrue h2 =>
      rw [saveSettings_irBypass,
        loadIrToRam_irBypass _ _ _ (shouldBypassOf_false cat r h2.1), h2.1]
    case isFalse h2 => rfl
  case isFalse h1 =>
    split
    case isTrue h2 =>
      rw [saveSettings_irBypass,
        loadIrToRam_irBypass _ _ _ (shouldBypassOf_false cat r h2.1), h2.1]
    case isFalse h2 =>
      rw [flushSettings_irBypass]
      exact ((not_ne_iff.mp h1).trans (flushSettings_irBypass s)).symm

theorem controlTick_currentIrIndex_of_bypass (cat : Catalog) (r : ℚ) (s : SysState)
    (h : shouldBypassOf cat r = true) :
    (controlTick cat r s).currentIrIndex = s.currentIrIndex := by
  unfold controlTick
  dsimp only
  split
  case isTrue h1 =>
    rw [if_neg (by simp [h])]
    exact flushSettings_currentIrIndex s
  case isFalse h1 =>
    rw [if_neg (by simp [h])]
    exact flushSettings_currentIrIndex s

theorem controlTick_trigger_of_change (cat : Catalog) (r : ℚ) (s : SysState)
    (h : shouldBypassOf cat r ≠ s.irBypass ∨
      (shouldBypassOf cat r = false ∧ quantizeSelector r ≠ s.currentIrIndex)) :
    (controlTick cat r s).triggerSettingsSave = true := by
  unfold controlTick
  dsimp only
  split
  case isTrue h1 => split <;> rfl
  case isFalse h1 =>
    split
    case isTrue h2 => rfl
    case isFalse h2 =>
      exfalso
      rw [flushSettings_irBypass] at h1
      rcases h with h | h
      · exact h1 h
      · apply h2
        refine ⟨h.1, ?_⟩
        rw [flushSettings_currentIrIndex]
        exact h.2

theorem controlTick_currentIrIndex_of_active (cat : Catalog) (r : ℚ) (s : SysState)
    (h : shouldBypassOf cat r = false) :
    (controlTick cat r s).currentIrIndex = quantizeSelector r := by
  have hc := shouldBypassOf_false cat r h
  have hp0 : 0 ≤ quantizeSelector r := quantizeSelector_nonneg r
  have hplt : quantizeSelector r < (cat.count : Int) := by
    have h2 := h
    unfold shouldBypassOf at h2
    rw [decide_eq_false_iff_not] at h2
    omega
  unfold controlTick
  dsimp only
  split
  case isTrue h1 =>
    split
    case isTrue h2 =>
      rw [saveSettings_currentIrIndex, loadIrToRam_currentIrIndex _ _ _ hc,
        validIndex_of_inbounds _ _ hp0 hplt]
    case isFalse h2 => exact (not_ne_iff.mp (not_and.mp h2 h)).symm
  case isFalse h1 =>
    split
    case isTrue h2 =>
      rw [saveSettings_currentIrIndex, loadIrToRam_currentIrIndex _ _ _ hc,
        validIndex_of_inbounds _ _ hp0 hplt]
    case isFalse h2 => exact (not_ne_iff.mp (not_and.mp h2 h)).symm

theorem controlTick_currentIrIndex_cases (cat : Catalog) (r : ℚ) (s : SysState) :
    (controlTick cat r s).currentIrIndex = s.currentIrIndex ∨
    (cat.count ≠ 0 ∧
      (controlTick cat r s).currentIrIndex = validIndex cat (quantizeSelector r)) := by
  unfold controlTick
  dsimp only
  split
  case isTrue h1 =>
    split
    case isTrue h2 =>
      right
      have hc := shouldBypassOf_false cat r h2.1
      refine ⟨hc, ?_⟩
      rw [saveSettings_currentIrIndex, loadIrToRam_currentIrIndex _ _ _ hc]
    case isFalse h2 =>
      left
      exact flushSettings_currentIrIndex s
  case isFalse h1 =>
    split
    case isTrue h2 =>
      right
      have hc := shouldBypassOf_false cat r h2.1
      refine ⟨hc, ?_⟩
      rw [saveSettings_currentIrIndex, loadIrToRam_currentIrIndex _ _ _ hc]
    case isFalse h2 =>
      left
      exact flushSettings_currentIrIndex s

theorem controlTick_noop_core (cat : Catalog) (r : ℚ) (s : SysState)
    (h1 : shouldBypassOf cat r = s.irBypass)
    (h2 : quantizeSelector r = s.currentIrIndex) :
    controlTick cat r s = flushSettings s := by
  unfold controlTick
  dsimp only
  rw [if_neg (not_ne_iff.mpr (h1.trans (flushSettings_irBypass s).symm))]
  rw [if_neg (fun hc => hc.2 (h2.trans (flushSettings_currentIrIndex s).symm))]

theorem flushSettings_of_clean (s : SysState)
    (h : s.triggerSettingsSave = false) : flushSettings s = s := by
  unfold flushSettings
  rw [h]
  rfl

theorem invIndex_restoreDefaults (cat : Catalog) (s : SysState)
    (h : invIndex cat s) : invIndex cat (restoreDefaults s) := h

theorem invIndex_loadIrToRam (cat : Catalog) (idx : Int) (s : SysState)
    (_h : invIndex cat s) : invIndex cat (loadIrToRam cat idx s) := by
  by_cases hc : cat.count = 0
  · rw [loadIrToRam_empty _ _ _ hc]
    intro hc2
    exact absurd hc hc2
  · intro _
    rw [loadIrToRam_currentIrIndex _ _ _ hc]
    exact ⟨validIndex_nonneg _ _, validIndex_lt _ _ hc⟩

theorem invIndex_loadSettingsOnce (cat : Catalog) (s : SysState)
    (h : invIndex cat s) : invIndex cat (loadSettingsOnce cat s) := by
  by_cases hc : cat.count = 0
  · unfold loadSettingsOnce
    rw [if_pos hc]
    intro hc2
    exact absurd hc hc2
  · rw [loadSettingsOnce_nonempty _ _ hc]
    exact invIndex_loadIrToRam _ _ _ h

theorem controlTick_localSettings_of_change (cat : Catalog) (r : ℚ) (s : SysState)
    (h : shouldBypassOf cat r ≠ s.irBypass ∨
      (shouldBypassOf cat r = false ∧ quantizeSelector r ≠ s.currentIrIndex)) :
    (controlTick cat r s).localSettings =
      ⟨SETTINGS_VERSION, (controlTick cat r s).currentIrIndex⟩ := by
  unfold controlTick
  dsimp only
  split
  case isTrue h1 => split <;> rfl
  case isFalse h1 =>
    split
    case isTrue h2 => rfl
    case isFalse h2 =>
      exfalso
      rw [flushSettings_irBypass] at h1
      rcases h with h | h
      · exact h1 h
      · apply h2
        refine ⟨h.1, ?_⟩
        rw [flushSettings_currentIrIndex]
        exact h.2

/-! The claims. -/

/-- C1 counterexample: `loadIrToRam` on a non-empty catalog with the
out-of-bounds index 5 does NOT publish bypass and DOES copy: it loads
kernel 0 (the buffer cell changes from 0 to 1) and clears the bypass flag,
against the claim's "publish bypass = true and perform no copy". -/
theorem loadIrToRam_oob_cex :
    (testCat1.count : Int) ≤ 5 ∧
    testStateBypassed.irBypass = true ∧
    (loadIrToRam testCat1 5 testStateBypassed).irBypass = false ∧
    testStateBypassed.irRamBuffer 0 = 0 ∧
    (loadIrToRam testCat1 5 testStateBypassed).irRamBuffer 0 = 1 := by
  with_unfolding_all decide

/-- C1 (amended): a load request with an empty catalog publishes
`bypass = true` and performs no copy; a load request with an out-of-bounds
index and a non-empty catalog replaces the index by 0, copies kernel 0 into
the RAM buffer, sets the active index to 0, and clears the bypass flag. -/
theorem loadIrToRam_oob_loads_zero (cat : Catalog) (idx : Int) (s : SysState) :
    (cat.count = 0 → loadIrToRam cat idx s = { s with irBypass := true }) ∧
    (cat.count ≠ 0 → (idx < 0 ∨ (cat.count : Int) ≤ idx) →
      (loadIrToRam cat idx s).currentIrIndex = 0 ∧
      (loadIrToRam cat idx s).irBypass = false ∧
      (loadIrToRam cat idx s).irLength = (cat.entries 0).length ∧
      ∀ i, i < (cat.entries 0).length →
        (loadIrToRam cat idx s).irRamBuffer i = (cat.entries 0).data i) := by
  constructor
  · exact fun h => loadIrToRam_empty cat idx s h
  · intro hc hoob
    have hv : validIndex cat idx = 0 := by
      unfold validIndex
      rw [if_pos hoob]
    refine ⟨?_, loadIrToRam_irBypass _ _ _ hc, ?_, ?_⟩
    · rw [loadIrToRam_currentIrIndex _ _ _ hc, hv]
    · rw [loadIrToRam_irLength _ _ _ hc, hv]
      rfl
    · intro i hi
      rw [loadIrToRam_irRamBuffer _ _ _ hc, hv]
      show copyLoop (cat.entries 0).data s.irRamBuffer (cat.entries 0).length i = _
      rw [copyLoop_apply, if_pos hi]

/-- C1 witness: the amended claim evaluated on concrete inputs. -/
theorem loadIrToRam_oob_loads_zero_witness :
    loadIrToRam testCat0 5 testStateActive = { testStateActive with irBypass := true } ∧
    (loadIrToRam testCat1 5 testStateBypassed).currentIrIndex = 0 ∧
    (loadIrToRam testCat1 5 testStateBypassed).irBypass = false := by
  refine ⟨(loadIrToRam_oob_loads_zero testCat0 5 testStateActive).1 rfl, ?_, ?_⟩
  · exact ((loadIrToRam_oob_loads_zero testCat1 5 testStateBypassed).2 (by decide)
      (Or.inr (by decide))).1
  · exact ((loadIrToRam_oob_loads_zero testCat1 5 testStateBypassed).2 (by decide)
      (Or.inr (by decide))).2.1

/-- C2: at the end of every control tick the bypass flag is true exactly when
the quantized selector position is at least the catalog size; with an empty
catalog it is always true. -/
theorem controlTick_bypass_iff_position (cat : Catalog) (r : ℚ) (s : SysState) :
    ((controlTick cat r s).irBypass = true ↔
      (cat.count : Int) ≤ quantizeSelector r) ∧
    (cat.count = 0 → (controlTick cat r s).irBypass = true) := by
  have hb := controlTick_irBypass cat r s
  constructor
  · rw [hb]
    unfold shouldBypassOf
    rw [decide_eq_true_eq]
  · intro h
    have hq := quantizeSelector_nonneg r
    rw [hb]
    unfold shouldBypassOf
    rw [decide_eq_true_eq]
    omega

/-- C2 witness: with an empty catalog a tick always ends bypassed. -/
theorem controlTick_bypass_iff_position_witness :
    (controlTick testCat0 3 testStateActive).irBypass = true :=
  (controlTick_bypass_iff_position testCat0 3 testStateActive).2 rfl

/-- C3: loading a record with a stale schema version restores the compiled
defaults (which carry the current version) and terminates after exactly one
corrective pass: with any fuel at least 2 the result equals one
`RestoreDefaults` followed by a single plain pass. -/
theorem loadSettings_migration_single_pass (cat : Catalog) (s : SysState)
    (fuel : Nat) (h : s.localSettings.version ≠ SETTINGS_VERSION) :
    loadSettingsAux cat (fuel + 2) s = loadSettings cat s ∧
    loadSettings cat s = loadSettingsOnce cat (restoreDefaults s) ∧
    (loadSettings cat s).localSettings = defaultSettings ∧
    defaultSettings.version = SETTINGS_VERSION := by
  have h2 : loadSettings cat s = loadSettingsOnce cat (restoreDefaults s) :=
    loadSettingsAux_mismatch cat s 0 h
  refine ⟨(loadSettingsAux_mismatch cat s fuel h).trans h2.symm, h2, ?_, rfl⟩
  rw [h2, loadSettingsOnce_localSettings]
  rfl

/-- C3 witness: migration of a concrete stale record, with fuel 7. -/
theorem loadSettings_migration_single_pass_witness :
    loadSettingsAux testCat1 7 testStateStale = loadSettings testCat1 testStateStale ∧
    (loadSettings testCat1 testStateStale).localSettings = defaultSettings :=
  ⟨(loadSettings_migration_single_pass testCat1 testStateStale 5 (by decide)).1,
   (loadSettings_migration_single_pass testCat1 testStateStale 5 (by decide)).2.2.1⟩

/-- C4: saving while an in-bounds index is active, flushing, rebooting and
loading under the unchanged schema version restores exactly that index. -/
theorem save_load_roundtrip (cat : Catalog) (s : SysState) (idx : Int)
    (hcur : s.currentIrIndex = idx) (h0 : 0 ≤ idx)
    (hlt : idx < (cat.count : Int)) :
    (loadSettings cat
      (bootInit (flushSettings (saveSettings s)).storedSettings)).currentIrIndex
      = idx := by
  have hcount : cat.count ≠ 0 := by omega
  have hstored : (flushSettings (saveSettings s)).storedSettings =
      ⟨SETTINGS_VERSION, idx⟩ := by
    unfold flushSettings
    rw [if_pos (saveSettings_trigger s)]
    show (saveSettings s).localSettings = _
    unfold saveSettings
    rw [hcur]
  rw [hstored]
  show (loadSettingsAux cat (1 + 1) (bootInit ⟨SETTINGS_VERSION, idx⟩)).currentIrIndex = idx
  rw [loadSettingsAux_matched cat _ 1 rfl]
  rw [loadSettingsOnce_nonempty _ _ hcount]
  rw [loadIrToRam_currentIrIndex _ _ _ hcount]
  show validIndex cat (validIndex cat idx) = idx
  rw [validIndex_of_inbounds _ _ h0 hlt, validIndex_of_inbounds _ _ h0 hlt]

/-- C4 witness: round-trip of index 1 in a two-entry catalog. -/
theorem save_load_roundtrip_witness :
    (loadSettings testCat2
      (bootInit (flushSettings (saveSettings
        ⟨1, false, fun _ => 0, 0, ⟨SETTINGS_VERSION, 0⟩, ⟨SETTINGS_VERSION, 0⟩,
          false⟩)).storedSettings)).currentIrIndex = 1 :=
  save_load_roundtrip testCat2 _ 1 rfl (by decide) (by decide)

/-- C5 counterexample: on a tick that transitions INTO bypass (selector
position 5 with a one-entry catalog, previously active), the code calls
`saveSettings`, so the dirty flag IS set — against the claim's "when
transitioning into bypass, no dirty flag is set". -/
theorem controlTick_into_bypass_sets_dirty_cex :
    testStateActive.irBypass = false ∧
    testStateActive.triggerSettingsSave = false ∧
    shouldBypassOf testCat1 5 = true ∧
    (controlTick testCat1 5 testStateActive).irBypass = true ∧
    (controlTick testCat1 5 testStateActive).triggerSettingsSave = true := by
  with_unfolding_all decide

/-- C5 (amended): on every control tick where the computed (bypass, position)
state differs from the previously applied state, the controller applies the
transition — the bypass flag becomes the computed value, and when not
bypassing the active index becomes the selected position (so a position
change loads the selected kernel) — and marks the settings dirty on every
such change, including transitions into bypass; the record it stages always
carries the current in-bounds active index, which is left unchanged when
entering bypass. -/
theorem controlTick_change_applies_and_marks_dirty (cat : Catalog) (r : ℚ)
    (s : SysState)
    (h : shouldBypassOf cat r ≠ s.irBypass ∨
      (shouldBypassOf cat r = false ∧ quantizeSelector r ≠ s.currentIrIndex)) :
    (controlTick cat r s).triggerSettingsSave = true ∧
    (controlTick cat r s).irBypass = shouldBypassOf cat r ∧
    (shouldBypassOf cat r = false →
      (controlTick cat r s).currentIrIndex = quantizeSelector r) ∧
    (controlTick cat r s).localSettings =
      ⟨SETTINGS_VERSION, (controlTick cat r s).currentIrIndex⟩ ∧
    (shouldBypassOf cat r = true →
      (controlTick cat r s).currentIrIndex = s.currentIrIndex) :=
  ⟨controlTick_trigger_of_change cat r s h, controlTick_irBypass cat r s,
   fun ha => controlTick_currentIrIndex_of_active cat r s ha,
   controlTick_localSettings_of_change cat r s h,
   fun hb => controlTick_currentIrIndex_of_bypass cat r s hb⟩

/-- C5 witness: the amended claim on a concrete transition into bypass and
on a concrete position change (index 0 to 1 in a two-entry catalog). -/
theorem controlTick_change_applies_and_marks_dirty_witness :
    (controlTick testCat1 5 testStateActive).triggerSettingsSave = true ∧
    (controlTick testCat1 5 testStateActive).irBypass = shouldBypassOf testCat1 5 ∧
    (controlTick testCat2 1 testStateActive).currentIrIndex = quantizeSelector 1 ∧
    (controlTick testCat2 1 testStateActive).triggerSettingsSave = true :=
  ⟨(controlTick_change_applies_and_marks_dirty testCat1 5 testStateActive
      (Or.inl (by with_unfolding_all decide))).1,
   (controlTick_change_applies_and_marks_dirty testCat1 5 testStateActive
      (Or.inl (by with_unfolding_all decide))).2.1,
   (controlTick_change_applies_and_marks_dirty testCat2 1 testStateActive
      (Or.inr ⟨by with_unfolding_all decide, by with_unfolding_all decide⟩)).2.2.1
      (by with_unfolding_all decide),
   (controlTick_change_applies_and_marks_dirty testCat2 1 testStateActive
      (Or.inr ⟨by with_unfolding_all decide, by with_unfolding_all decide⟩)).1⟩

/-- C6 counterexample: the persisted index 5 with a catalog of size 2 is
above the valid range [0, 1], whose nearest boundary is 1; `loadSettings`
replaces it by 0 instead, against the claim's "values above the range map to
the upper bound". -/
theorem loadSettings_oob_nearest_cex :
    testStateOob.localSettings.irIndex = 5 ∧
    (testCat2.count : Int) - 1 = 1 ∧
    (loadSettings testCat2 testStateOob).currentIrIndex = 0 := by
  with_unfolding_all decide

/-- C6 (amended): a raw quantized selector position outside
[0, MAX_IR_POSITIONS-1] is clamped to the nearest boundary of that range;
an out-of-range persisted or requested kernel index is replaced by index 0
regardless of direction. -/
theorem out_of_range_handling (cat : Catalog) (idx : Int) (r : ℚ) (s : SysState) :
    (ctrunc (r + 1/2) < 0 → quantizeSelector r = 0) ∧
    (MAX_IR_POSITIONS ≤ ctrunc (r + 1/2) →
      quantizeSelector r = MAX_IR_POSITIONS - 1) ∧
    (cat.count ≠ 0 → (idx < 0 ∨ (cat.count : Int) ≤ idx) →
      (loadIrToRam cat idx s).currentIrIndex = 0) ∧
    (cat.count ≠ 0 → s.localSettings.version = SETTINGS_VERSION →
      (s.localSettings.irIndex < 0 ∨ (cat.count : Int) ≤ s.localSettings.irIndex) →
      (loadSettings cat s).currentIrIndex = 0) := by
  refine ⟨?_, ?_, ?_, ?_⟩
  · intro h
    unfold quantizeSelector
    dsimp only
    rw [if_pos h, if_neg (by decide)]
  · intro h
    have h12 : (12 : Int) ≤ ctrunc (r + 1/2) := h
    unfold quantizeSelector
    dsimp only
    rw [if_neg (show ¬(ctrunc (r + 1/2) < 0) by omega), if_pos h]
  · intro hc hoob
    rw [loadIrToRam_currentIrIndex _ _ _ hc]
    unfold validIndex
    rw [if_pos hoob]
  · intro hc hv hoob
    show (loadSettingsAux cat (1 + 1) s).currentIrIndex = 0
    rw [loadSettingsAux_matched cat s 1 hv, loadSettingsOnce_nonempty _ _ hc,
      loadIrToRam_currentIrIndex _ _ _ hc]
    have h1 : validIndex cat s.localSettings.irIndex = 0 := by
      unfold validIndex
      rw [if_pos hoob]
    rw [h1]
    exact validIndex_of_inbounds cat 0 (le_refl 0) (by omega)

/-- C6 witness: the amended claim on concrete out-of-range values. -/
theorem out_of_range_handling_witness :
    quantizeSelector (-3) = 0 ∧
    quantizeSelector 20 = MAX_IR_POSITIONS - 1 ∧
    (loadIrToRam testCat2 5 testStateOob).currentIrIndex = 0 ∧
    (loadSettings testCat2 testStateOob).currentIrIndex = 0 :=
  ⟨(out_of_range_handling testCat2 5 (-3) testStateOob).1
      (by with_unfolding_all decide),
   (out_of_range_handling testCat2 5 20 testStateOob).2.1
      (by with_unfolding_all decide),
   (out_of_range_handling testCat2 5 20 testStateOob).2.2.1 (by decide)
      (Or.inr (by decide)),
   (out_of_range_handling testCat2 5 20 testStateOob).2.2.2 (by decide) (by decide)
      (Or.inr (by decide))⟩

/-- C7: for a kernel whose length respects the buffer bound, the load's copy
loop writes exactly the cells 0..length-1 of the RAM buffer with the kernel
data and leaves every other cell (in particular everything at or beyond
MAX_IR_BUFFER_SIZE) unchanged. -/
theorem loadIrToRam_copy_bounded (cat : Catalog) (idx : Int) (s : SysState)
    (hcount : cat.count ≠ 0)
    (hlen : (cat.entries (validIndex cat idx).toNat).length ≤ MAX_IR_BUFFER_SIZE) :
    (∀ i, i < (cat.entries (validIndex cat idx).toNat).length →
      (loadIrToRam cat idx s).irRamBuffer i =
        (cat.entries (validIndex cat idx).toNat).data i) ∧
    (∀ i, (cat.entries (validIndex cat idx).toNat).length ≤ i →
      (loadIrToRam cat idx s).irRamBuffer i = s.irRamBuffer i) ∧
    (∀ i, MAX_IR_BUFFER_SIZE ≤ i →
      (loadIrToRam cat idx s).irRamBuffer i = s.irRamBuffer i) := by
  have hbuf := loadIrToRam_irRamBuffer cat idx s hcount
  refine ⟨fun i hi => ?_, fun i hi => ?_, fun i hi => ?_⟩
  · rw [hbuf, copyLoop_apply, if_pos hi]
  · rw [hbuf, copyLoop_apply, if_neg (by omega)]
  · rw [hbuf, copyLoop_apply, if_neg (by omega)]

/-- C7 witness: the bounded copy on a concrete one-sample kernel. -/
theorem loadIrToRam_copy_bounded_witness :
    (loadIrToRam testCat1 0 testStateActive).irRamBuffer 0 =
      (testCat1.entries (validIndex testCat1 0).toNat).data 0 ∧
    (loadIrToRam testCat1 0 testStateActive).irRamBuffer 9000 =
      testStateActive.irRamBuffer 9000 :=
  ⟨(loadIrToRam_copy_bounded testCat1 0 testStateActive (by decide) (by decide)).1
      0 (by decide),
   (loadIrToRam_copy_bounded testCat1 0 testStateActive (by decide) (by decide)).2.2
      9000 (by decide)⟩

/-- Helper: the callback produces one stereo sample per input sample. -/
theorem audioCallback_length (ops : DspOps σ) (bypass : Bool) (wetGain : ℚ)
    (kernel : Nat → ℚ) (klen : Nat) (st : σ) (inp : List ℚ) :
    (audioCallback ops bypass wetGain kernel klen st inp).length = inp.length := by
  induction inp generalizing st with
  | nil => rfl
  | cons x xs ih => simp [audioCallback, ih]

/-- C8: every block position holds the spec's per-sample value — the boosted
blend of the input with the filter peak for that sample, convolved with the
active kernel unless bypassed — written identically to both channels. -/
theorem audioCallback_per_sample (ops : DspOps σ) (bypass : Bool) (wetGain : ℚ)
    (kernel : Nat → ℚ) (klen : Nat) (st : σ) (inp : List ℚ) (i : Nat)
    (h : i < inp.length) :
    (audioCallback ops bypass wetGain kernel klen st inp).getD i (0, 0) =
      (specSampleOutput ops bypass wetGain kernel klen st inp i,
       specSampleOutput ops bypass wetGain kernel klen st inp i) := by
  induction inp generalizing st i with
  | nil => simp at h
  | cons x xs ih =>
    cases i with
    | zero =>
      simp [audioCallback, processSample, specSampleOutput]
    | succ n =>
      have hn : n < xs.length := by simpa using h
      simp only [audioCallback, processSample, List.getD_cons_succ]
      rw [ih (ops.svfProcess st x) n hn]
      simp only [specSampleOutput, List.take_succ_cons, List.foldl_cons,
        List.getD_cons_succ]

/-- C8 witness: the callback evaluated on a concrete two-sample block. -/
theorem audioCallback_per_sample_witness :
    (audioCallback testOps false 2 (fun _ => 0) 0 (0 : ℚ) [1, 2]).getD 1 (0, 0) =
      (specSampleOutput testOps false 2 (fun _ => 0) 0 (0 : ℚ) [1, 2] 1,
       specSampleOutput testOps false 2 (fun _ => 0) 0 (0 : ℚ) [1, 2] 1) :=
  audioCallback_per_sample testOps false 2 (fun _ => 0) 0 0 [1, 2] 1 (by decide)

/-- C9: a control tick whose computed bypass flag and quantized position
equal the applied bypass state and active index copies no kernel, leaves the
buffer, index, bypass flag and staged record unchanged, ends with the dirty
flag clear, and — when the dirty flag was already clear — is a no-op on the
whole shared state. -/
theorem controlTick_same_state_noop (cat : Catalog) (r : ℚ) (s : SysState)
    (h1 : shouldBypassOf cat r = s.irBypass)
    (h2 : quantizeSelector r = s.currentIrIndex) :
    (controlTick cat r s).irRamBuffer = s.irRamBuffer ∧
    (controlTick cat r s).currentIrIndex = s.currentIrIndex ∧
    (controlTick cat r s).irBypass = s.irBypass ∧
    (controlTick cat r s).localSettings = s.localSettings ∧
    (controlTick cat r s).triggerSettingsSave = false ∧
    (s.triggerSettingsSave = false → controlTick cat r s = s) := by
  have hc := controlTick_noop_core cat r s h1 h2
  rw [hc]
  exact ⟨flushSettings_irRamBuffer s, flushSettings_currentIrIndex s,
    flushSettings_irBypass s, flushSettings_localSettings s,
    flushSettings_trigger s, fun h3 => flushSettings_of_clean s h3⟩

/-- C9 witness: a concrete tick that matches the applied state. -/
theorem controlTick_same_state_noop_witness :
    (controlTick testCat1 0 testStateActive).triggerSettingsSave = false ∧
    controlTick testCat1 0 testStateActive = testStateActive :=
  ⟨(controlTick_same_state_noop testCat1 0 testStateActive
      (by with_unfolding_all decide) (by with_unfolding_all decide)).2.2.2.2.1,
   (controlTick_same_state_noop testCat1 0 testStateActive
      (by with_unfolding_all decide) (by with_unfolding_all decide)).2.2.2.2.2 rfl⟩

/-- C10: with a non-empty catalog the active index is in bounds at boot and
stays in bounds across every load, every settings load and every control
tick; consequently every save stages an in-bounds persisted index. -/
theorem currentIrIndex_invariant (cat : Catalog) (stored : Settings)
    (s : SysState) (idx : Int) (r : ℚ) :
    invIndex cat (bootInit stored) ∧
    (invIndex cat s → invIndex cat (loadIrToRam cat idx s)) ∧
    (invIndex cat s → invIndex cat (loadSettings cat s)) ∧
    (invIndex cat s → invIndex cat (controlTick cat r s)) ∧
    (invIndex cat s → cat.count ≠ 0 →
      0 ≤ (saveSettings s).localSettings.irIndex ∧
      (saveSettings s).localSettings.irIndex < (cat.count : Int)) := by
  refine ⟨?_, fun h => invIndex_loadIrToRam cat idx s h, ?_, ?_, ?_⟩
  · intro hc
    refine ⟨le_refl 0, ?_⟩
    show (0 : Int) < (cat.count : Int)
    omega
  · intro h
    by_cases hv : s.localSettings.version = SETTINGS_VERSION
    · have he : loadSettings cat s = loadSettingsOnce cat s :=
        loadSettingsAux_matched cat s 1 hv
      rw [he]
      exact invIndex_loadSettingsOnce cat s h
    · have he : loadSettings cat s = loadSettingsOnce cat (restoreDefaults s) :=
        loadSettingsAux_mismatch cat s 0 hv
      rw [he]
      exact invIndex_loadSettingsOnce cat _ (invIndex_restoreDefaults cat s h)
  · intro h
    rcases controlTick_currentIrIndex_cases cat r s with hcase | ⟨hc, hcase⟩
    · intro hc2
      rw [hcase]
      exact h hc2
    · intro _
      rw [hcase]
      exact ⟨validIndex_nonneg _ _, validIndex_lt _ _ hc⟩
  · intro h hc
    exact h hc

/-- C10 witness: the invariant on concrete states and operations. -/
theorem currentIrIndex_invariant_witness :
    invIndex testCat1 (bootInit defaultSettings) ∧
    invIndex testCat1 (loadIrToRam testCat1 5 testStateActive) ∧
    invIndex testCat1 (loadSettings testCat1 testStateActive) :=
  ⟨(currentIrIndex_invariant testCat1 defaultSettings testStateActive 5 3).1,
   (currentIrIndex_invariant testCat1 defaultSettings testStateActive 5 3).2.1
      (by decide),
   (currentIrIndex_invariant testCat1 defaultSettings testStateActive 5 3).2.2.1
      (by decide)⟩
